import Mathlib

/-!
Verification of the per-frame pipeline of `opendlv-video-hsv-inspector`
(`src/opendlv-video-hsv-inspector.cpp`), a shared-memory video inspector that
converts each ARGB frame to HSV, applies per-channel bias and range masking,
and displays the mask and the masked, bias-adjusted image.

The embedding models:
 * the per-channel bias stage (`cv::min(cv::max(ch - sub, 0) + add, M)` on
   CV_16S data, lines 124-126), including the widening to 16-bit signed and
   the narrowing back to 8 bits (`convertTo`, lines 120-122 / 128-130);
 * the per-pixel HSV conversion, range mask (`cv::inRange`, line 136) and
   composite (`copyTo` with mask, line 144);
 * the command-line / attach control flow of `main` (lines 31-58, 153-156);
 * the event order of one display-loop iteration (lines 102-148).
-/

namespace HsvInspector

/-- The per-channel bias stage of lines 124-126 of the source:
`cv::min(cv::max(channel - sub, 0) + add, m)`, computed elementwise on the
16-bit signed channel data. `m` is 179 for the hue channel and 255 for the
saturation and value channels. -/
def biasChannel (m v sub add : Int) : Int :=
  min (max (v - sub) 0 + add) m

/-- The bias stage as the specification words it (spec 4.2):
`clip(v - sub + add, domain(c))` with a SINGLE saturating clip applied after
both the subtraction and the addition.  Declared only to be compared with
`biasChannel`, which is translated from the source. -/
def specBiasChannel (m v sub add : Int) : Int :=
  min (max (v - sub + add) 0) m

/-- `saturate_cast<uchar>` applied by `convertTo(..., CV_8U)`
(lines 128-130): saturating narrowing of an integer to [0,255]. -/
def toU8 (x : Int) : Int :=
  min (max x 0) 255

/-- The intermediate values of the bias computation in source order, as they
exist in the widened CV_16S representation (lines 120-126): the difference
after subtraction, the value after the lower clamp, the sum after the
addition, and the final value after the upper clamp. -/
def biasIntermediates (m v sub add : Int) : List Int :=
  [v - sub, max (v - sub) 0, max (v - sub) 0 + add,
   min (max (v - sub) 0 + add) m]

/-- A 16-bit signed (CV_16S) representable value. -/
def fitsInt16 (x : Int) : Prop :=
  -32768 ≤ x ∧ x ≤ 32767

instance (x : Int) : Decidable (fitsInt16 x) := by
  unfold fitsInt16; infer_instance

/-- C1. The claim states the bias stage computes `clip(v - sub + add, dom)`
with no clipping between the subtraction and the addition, and that any
combined pre-clip value `v - sub + add` below 0 maps to 0.  The source
(line 124) clamps to 0 BETWEEN the subtraction and the addition:
`min(max(v - sub, 0) + add, m)`.  At `v = 0, sub = 5, add = 5` on the hue
channel the code yields 5 while the claimed single-clip formula yields 0,
and the combined pre-clip value `0 - 5 + 5 = 0`; at `v = 0, sub = 10,
add = 5` the pre-clip value is below 0 yet the code yields 5, not 0. -/
theorem biasChannel_differs_from_single_clip :
    biasChannel 179 0 5 5 ≠ specBiasChannel 179 0 5 5 ∧
    biasChannel 179 0 5 5 = 5 ∧ specBiasChannel 179 0 5 5 = 0 ∧
    (0 : Int) - 10 + 5 < 0 ∧ biasChannel 179 0 10 5 = 5 := by
  decide

/-- C1 (amended). For every channel domain bound `m` and `v`, `sub`, `add`
in the domain, the bias stage computes `min(max(v - sub, 0) + add, m)`:
subtract, clamp to 0, add, then one saturating upper clip to `m`.  When
`sub ≤ v` the intermediate clamp is inert and the result agrees with the
spec's single-clip formula; when `v < sub` the result is `min(add, m)`
(so a combined pre-clip value below 0 maps to `add`, not to 0).  The final
result always lies in `[0, m]`. -/
theorem biasChannel_amended (m v sub add : Int)
    (hm : 0 < m) (hv : 0 ≤ v) (hsub : 0 ≤ sub) (hadd : 0 ≤ add) :
    (sub ≤ v → biasChannel m v sub add = specBiasChannel m v sub add) ∧
    (v < sub → biasChannel m v sub add = min add m) ∧
    0 ≤ biasChannel m v sub add ∧ biasChannel m v sub add ≤ m := by
  unfold biasChannel specBiasChannel
  omega

/-- Witness for `biasChannel_amended` at `m = 179, v = 10, sub = 3, add = 200`. -/
theorem biasChannel_amended_witness :
    (3 ≤ (10 : Int) → biasChannel 179 10 3 200 = specBiasChannel 179 10 3 200) ∧
    ((10 : Int) < 3 → biasChannel 179 10 3 200 = min 200 179) ∧
    0 ≤ biasChannel 179 10 3 200 ∧ biasChannel 179 10 3 200 ≤ 179 :=
  biasChannel_amended 179 10 3 200 (by decide) (by decide) (by decide) (by decide)

/-- C5. The clipped bias result is monotonically non-decreasing in `add`
(for fixed `v`, `sub`) and monotonically non-increasing in `sub`
(for fixed `v`, `add`). -/
theorem biasChannel_monotone (m v sub sub' add add' : Int)
    (hadd : add ≤ add') (hsub : sub ≤ sub') :
    biasChannel m v sub add ≤ biasChannel m v sub add' ∧
    biasChannel m v sub' add ≤ biasChannel m v sub add := by
  unfold biasChannel
  omega

/-- Witness for `biasChannel_monotone` at `m = 255, v = 100, sub = 5 ≤ 9,
add = 7 ≤ 30`. -/
theorem biasChannel_monotone_witness :
    biasChannel 255 100 5 7 ≤ biasChannel 255 100 5 30 ∧
    biasChannel 255 100 9 7 ≤ biasChannel 255 100 5 7 :=
  biasChannel_monotone 255 100 5 9 7 30 (by decide) (by decide)

/-- C6. For every channel value `v` in [0,255] and `sub`, `add` in the
channel's domain `[0, m]` with `m ≤ 255`, every intermediate value of the
bias computation fits in the widened 16-bit signed type (no overflow), the
final clipped result lies in `[0, m]`, and the narrowing back to 8 bits
(`saturate_cast<uchar>`) leaves it unchanged. -/
theorem biasChannel_no_overflow (m v sub add : Int)
    (hm : 0 < m) (hm' : m ≤ 255)
    (hv : 0 ≤ v) (hv' : v ≤ 255)
    (hsub : 0 ≤ sub) (hsub' : sub ≤ m)
    (hadd : 0 ≤ add) (hadd' : add ≤ m) :
    (∀ x ∈ biasIntermediates m v sub add, fitsInt16 x) ∧
    0 ≤ biasChannel m v sub add ∧ biasChannel m v sub add ≤ m ∧
    toU8 (biasChannel m v sub add) = biasChannel m v sub add := by
  refine ⟨?_, ?_, ?_, ?_⟩
  · intro x hx
    simp only [biasIntermediates, List.mem_cons, List.not_mem_nil, or_false] at hx
    unfold fitsInt16
    rcases hx with h | h | h | h <;> subst h <;> omega
  · unfold biasChannel; omega
  · unfold biasChannel; omega
  · unfold toU8 biasChannel; omega

/-- Witness for `biasChannel_no_overflow` at `m = 179, v = 255, sub = 179,
add = 179` (the extreme hue-channel case). -/
theorem biasChannel_no_overflow_witness :
    (∀ x ∈ biasIntermediates 179 255 179 179, fitsInt16 x) ∧
    0 ≤ biasChannel 179 255 179 179 ∧ biasChannel 179 255 179 179 ≤ 179 ∧
    toU8 (biasChannel 179 255 179 179) = biasChannel 179 255 179 179 :=
  biasChannel_no_overflow 179 255 179 179 (by decide) (by decide) (by decide)
    (by decide) (by decide) (by decide) (by decide) (by decide)

/-- One raw pixel of the shared-memory frame: four interleaved 8-bit
channels (`cvCreateImageHeader(size, IPL_DEPTH_8U, 4)`, line 58), in memory
order `c0 c1 c2 c3`. -/
structure Pix4 where
  c0 : Int
  c1 : Int
  c2 : Int
  c3 : Int
deriving DecidableEq, Repr

/-- One inspection-space (HSV) pixel: hue in [0,179], saturation and value
in [0,255]. -/
structure HsvPix where
  h : Int
  s : Int
  v : Int
deriving DecidableEq, Repr

/-- One 3-channel display-space pixel (`COLOR_HSV2BGR` output, line 140). -/
structure BgrPix where
  b : Int
  g : Int
  r : Int
deriving DecidableEq, Repr

/-- Modelled from the spec: `toInspectionSpace`, the "standard non-linear
RGB→(hue,saturation,value)-like conversion; channel 0 range [0,179],
channels 1-2 range [0,255]" (spec 4.2).  The source delegates it to
`cv::cvtColor(img, imgHSV, cv::COLOR_BGR2HSV)` (line 118) on the 4-channel
image; that conversion consumes the FIRST THREE interleaved bytes of each
pixel as the blue, green and red components and ignores the FOURTH byte.
Negative-numerator divisions use truncation (`Int.tdiv`) as in C. -/
def bgr2hsv (p : Pix4) : HsvPix :=
  let b := p.c0
  let g := p.c1
  let r := p.c2
  let vv := max b (max g r)
  let mn := min b (min g r)
  let d := vv - mn
  let s := if vv = 0 then 0 else (255 * d) / vv
  let h0 : Int :=
    if d = 0 then 0
    else if vv = r then Int.tdiv (60 * (g - b)) d
    else if vv = g then 120 + Int.tdiv (60 * (b - r)) d
    else 240 + Int.tdiv (60 * (r - g)) d
  let h1 := if h0 < 0 then h0 + 360 else h0
  ⟨h1 / 2, s, vv⟩

/-- Modelled from the spec: `toDisplaySpace`, the "inverse conversion for
presentation" (spec 4.2); the source delegates it to
`cv::cvtColor(imgHSV, adjustedBGR, cv::COLOR_HSV2BGR)` (line 140).
Standard integer sector-based HSV→BGR reconstruction. -/
def hsv2bgr (q : HsvPix) : BgrPix :=
  let h2 := q.h * 2
  let region := h2 / 60
  let f := h2 % 60
  let p := q.v * (255 - q.s) / 255
  let u := q.v * (255 * 60 - q.s * f) / (255 * 60)
  let t := q.v * (255 * 60 - q.s * (60 - f)) / (255 * 60)
  if region = 0 then ⟨p, t, q.v⟩
  else if region = 1 then ⟨p, q.v, u⟩
  else if region = 2 then ⟨t, q.v, p⟩
  else if region = 3 then ⟨q.v, u, p⟩
  else if region = 4 then ⟨q.v, p, t⟩
  else ⟨u, p, q.v⟩

/-- The nine live trackbar values plus the three subtractive biases
(lines 68-95): three range pairs, three additive and three subtractive
biases. -/
structure Controls where
  minH : Int
  maxH : Int
  minS : Int
  maxS : Int
  minV : Int
  maxV : Int
  hAdd : Int
  sAdd : Int
  vAdd : Int
  hSub : Int
  sSub : Int
  vSub : Int
deriving DecidableEq, Repr

/-- The bias stage applied to one HSV pixel (lines 120-130): widen to
CV_16S, apply `biasChannel` per channel with the hue domain bound 179 and
the saturation/value bound 255, narrow back to CV_8U. -/
def applyBiasPix (c : Controls) (q : HsvPix) : HsvPix :=
  ⟨toU8 (biasChannel 179 q.h c.hSub c.hAdd),
   toU8 (biasChannel 255 q.s c.sSub c.sAdd),
   toU8 (biasChannel 255 q.v c.vSub c.vAdd)⟩

/-- The bias stage applied to a whole inspection frame. -/
def applyBiasFrame (c : Controls) (f : List HsvPix) : List HsvPix :=
  f.map (applyBiasPix c)

/-- Elementwise semantics of `cv::inRange(imgHSV, Scalar(minH, minS, minV),
Scalar(maxH, maxS, maxV), mask)` (line 136): the mask pixel is 255 iff every
channel lies between the corresponding lower and upper bound, inclusive,
and 0 otherwise. -/
def maskPix (c : Controls) (q : HsvPix) : Int :=
  if c.minH ≤ q.h ∧ q.h ≤ c.maxH ∧
     c.minS ≤ q.s ∧ q.s ≤ c.maxS ∧
     c.minV ≤ q.v ∧ q.v ≤ c.maxV then 255 else 0

/-- The mask of a whole inspection frame. -/
def computeMask (c : Controls) (f : List HsvPix) : List Int :=
  f.map (maskPix c)

/-- Elementwise semantics of `adjustedBGR.copyTo(filtered, mask)` onto the
freshly created `filtered` (lines 143-144): the source pixel is copied where
the mask is non-zero; elsewhere the zero-initialized background remains. -/
def compositePix (src : BgrPix) (m : Int) : BgrPix :=
  if m ≠ 0 then src else ⟨0, 0, 0⟩

/-- Whether an HSV pixel lies in the inspection-space domain:
hue in [0,179], saturation and value in [0,255]. -/
def hsvInDomain (q : HsvPix) : Bool :=
  0 ≤ q.h && q.h ≤ 179 && 0 ≤ q.s && q.s ≤ 255 && 0 ≤ q.v && q.v ≤ 255

/-- The full per-pixel transform of one loop iteration (lines 117-144):
convert to HSV, apply the bias, compute the mask value, convert the biased
pixel back for display and composite it against the mask.  Returns the two
displayed quantities for the pixel: its mask value and its pixel in the
"Adjusted and masked" image. -/
def pipelinePix (c : Controls) (p : Pix4) : Int × BgrPix :=
  let q := applyBiasPix c (bgr2hsv p)
  let m := maskPix c q
  (m, compositePix (hsv2bgr q) m)

/-- The per-frame transform: both displayed images, pixel by pixel. -/
def pipeline (c : Controls) (f : List Pix4) : List (Int × BgrPix) :=
  f.map (pipelinePix c)

theorem bgr2hsv_congr (p q : Pix4)
    (h0 : p.c0 = q.c0) (h1 : p.c1 = q.c1) (h2 : p.c2 = q.c2) :
    bgr2hsv p = bgr2hsv q := by
  unfold bgr2hsv
  rw [h0, h1, h2]

/-- C3 counterexample. The claim says the per-frame outputs are independent
of the FIRST of the four interleaved bytes of each pixel.  They are not:
the conversion to inspection space consumes bytes 0-2 as blue, green, red
and ignores byte 3.  Two one-pixel frames agreeing on bytes 1-3 and
differing only in byte 0 (0 versus 255) produce different mask values under
the controls (ranges hue [0,179], saturation [0,255], value [0,0], zero
bias), hence different displayed views. -/
theorem pipeline_depends_on_first_byte :
    (Pix4.mk 0 0 0 0).c1 = (Pix4.mk 255 0 0 0).c1 ∧
    (Pix4.mk 0 0 0 0).c2 = (Pix4.mk 255 0 0 0).c2 ∧
    (Pix4.mk 0 0 0 0).c3 = (Pix4.mk 255 0 0 0).c3 ∧
    pipeline ⟨0, 179, 0, 255, 0, 0, 0, 0, 0, 0, 0, 0⟩ [⟨0, 0, 0, 0⟩] ≠
      pipeline ⟨0, 179, 0, 255, 0, 0, 0, 0, 0, 0, 0, 0⟩ [⟨255, 0, 0, 0⟩] := by
  decide

/-- C3 (amended). The per-frame pipeline output (the mask and both displayed
images) is independent of the FOURTH interleaved byte of each pixel, the
one the 4-channel-to-HSV conversion ignores: for any two frames that agree
pointwise on bytes 0-2, every derived view is identical. -/
theorem pipeline_ignores_fourth_byte (c : Controls) (f1 f2 : List Pix4)
    (h : List.Forall₂ (fun p q => p.c0 = q.c0 ∧ p.c1 = q.c1 ∧ p.c2 = q.c2) f1 f2) :
    pipeline c f1 = pipeline c f2 := by
  unfold pipeline
  induction h with
  | nil => rfl
  | cons hpq _ ih =>
      simp only [List.map_cons, ih]
      have hpix := bgr2hsv_congr _ _ hpq.1 hpq.2.1 hpq.2.2
      unfold pipelinePix
      rw [hpix]

/-- Witness for `pipeline_ignores_fourth_byte`: two one-pixel frames that
differ only in the fourth byte produce identical views. -/
theorem pipeline_ignores_fourth_byte_witness :
    pipeline ⟨0, 179, 0, 255, 0, 255, 1, 2, 3, 4, 5, 6⟩ [⟨10, 20, 30, 40⟩] =
      pipeline ⟨0, 179, 0, 255, 0, 255, 1, 2, 3, 4, 5, 6⟩ [⟨10, 20, 30, 99⟩] :=
  pipeline_ignores_fourth_byte _ _ _
    (List.Forall₂.cons ⟨rfl, rfl, rfl⟩ List.Forall₂.nil)

theorem maskPix_eq_255_iff (c : Controls) (q : HsvPix) :
    maskPix c q = 255 ↔
      (c.minH ≤ q.h ∧ q.h ≤ c.maxH ∧ c.minS ≤ q.s ∧ q.s ≤ c.maxS ∧
       c.minV ≤ q.v ∧ q.v ≤ c.maxV) := by
  unfold maskPix
  split_ifs with hc
  · exact ⟨fun _ => hc, fun _ => rfl⟩
  · exact ⟨fun habs => absurd habs (by decide), fun hcond => absurd hcond hc⟩

/-- C4. A mask pixel is 255 iff for every channel the post-bias value lies
between the channel's lower and upper bound inclusive (three independent
checks ANDed), and is 0 otherwise; consequently if any channel has
min > max the whole mask is zero (not an error), and with min = 0 and
max = domain maximum on every channel the mask of any in-domain frame is
all 255. -/
theorem computeMask_correct (c : Controls) (q : HsvPix) (f : List HsvPix) :
    (maskPix c q = 255 ↔
      (c.minH ≤ q.h ∧ q.h ≤ c.maxH ∧ c.minS ≤ q.s ∧ q.s ≤ c.maxS ∧
       c.minV ≤ q.v ∧ q.v ≤ c.maxV)) ∧
    (maskPix c q = 255 ∨ maskPix c q = 0) ∧
    ((c.maxH < c.minH ∨ c.maxS < c.minS ∨ c.maxV < c.minV) →
      ∀ m ∈ computeMask c f, m = 0) ∧
    ((c.minH = 0 ∧ c.maxH = 179 ∧ c.minS = 0 ∧ c.maxS = 255 ∧
      c.minV = 0 ∧ c.maxV = 255) →
      (∀ p ∈ f, hsvInDomain p = true) → ∀ m ∈ computeMask c f, m = 255) := by
  refine ⟨maskPix_eq_255_iff c q, ?_, ?_, ?_⟩
  · unfold maskPix
    split_ifs <;> simp
  · intro hbad m hm
    obtain ⟨p, _, hp⟩ := List.mem_map.mp hm
    subst hp
    unfold maskPix
    split_ifs with hc
    · omega
    · rfl
  · intro hfull hdom m hm
    obtain ⟨p, hpmem, hp⟩ := List.mem_map.mp hm
    subst hp
    have hd := hdom p hpmem
    unfold hsvInDomain at hd
    simp only [Bool.and_eq_true, decide_eq_true_eq] at hd
    rw [maskPix_eq_255_iff]
    obtain ⟨h1, h2, h3, h4, h5, h6⟩ := hfull
    refine ⟨by omega, by omega, by omega, by omega, by omega, by omega⟩

/-- Witness for `computeMask_correct`: with full-wide ranges the mask of an
in-domain one-pixel frame is all 255; with min > max on the hue channel the
mask is all 0. -/
theorem computeMask_correct_witness :
    (∀ m ∈ computeMask ⟨0, 179, 0, 255, 0, 255, 0, 0, 0, 0, 0, 0⟩
        [⟨10, 20, 30⟩], m = 255) ∧
    (∀ m ∈ computeMask ⟨9, 3, 0, 255, 0, 255, 0, 0, 0, 0, 0, 0⟩
        [⟨10, 20, 30⟩], m = 0) :=
  ⟨(computeMask_correct ⟨0, 179, 0, 255, 0, 255, 0, 0, 0, 0, 0, 0⟩ ⟨10, 20, 30⟩
      [⟨10, 20, 30⟩]).2.2.2 (by decide) (by decide),
   (computeMask_correct ⟨9, 3, 0, 255, 0, 255, 0, 0, 0, 0, 0, 0⟩ ⟨10, 20, 30⟩
      [⟨10, 20, 30⟩]).2.2.1 (by decide)⟩

/-- C7. Each output pixel of the composite equals the corresponding source
pixel where the mask value is 255 and the fixed zero background where the
mask value is 0. -/
theorem compositePix_correct (src : BgrPix) (m : Int) :
    (m = 255 → compositePix src m = src) ∧
    (m = 0 → compositePix src m = ⟨0, 0, 0⟩) := by
  unfold compositePix
  constructor
  · intro h; subst h; simp
  · intro h; subst h; simp

/-- Witness for `compositePix_correct` at mask values 255 and 0. -/
theorem compositePix_correct_witness :
    compositePix ⟨1, 2, 3⟩ 255 = ⟨1, 2, 3⟩ ∧
    compositePix ⟨7, 8, 9⟩ 0 = ⟨0, 0, 0⟩ :=
  ⟨(compositePix_correct ⟨1, 2, 3⟩ 255).1 rfl,
   (compositePix_correct ⟨7, 8, 9⟩ 0).2 rfl⟩

theorem applyBiasPix_zero_identity (c : Controls) (q : HsvPix)
    (hc : c.hAdd = 0 ∧ c.sAdd = 0 ∧ c.vAdd = 0 ∧
          c.hSub = 0 ∧ c.sSub = 0 ∧ c.vSub = 0)
    (hq : hsvInDomain q = true) :
    applyBiasPix c q = q := by
  obtain ⟨h1, h2, h3, h4, h5, h6⟩ := hc
  unfold hsvInDomain at hq
  simp only [Bool.and_eq_true, decide_eq_true_eq] at hq
  cases q with
  | mk h s v =>
      unfold applyBiasPix
      rw [h1, h2, h3, h4, h5, h6]
      unfold biasChannel toU8
      simp only [HsvPix.mk.injEq]
      refine ⟨?_, ?_, ?_⟩ <;> simp only [] at hq ⊢ <;> omega

/-- C9. Applying the bias stage with add = 0 and sub = 0 on every channel
is the identity: every inspection-space frame whose channel values lie in
the channel domains is numerically unchanged, on all pixels and channels. -/
theorem applyBiasFrame_zero_identity (c : Controls) (f : List HsvPix)
    (hc : c.hAdd = 0 ∧ c.sAdd = 0 ∧ c.vAdd = 0 ∧
          c.hSub = 0 ∧ c.sSub = 0 ∧ c.vSub = 0)
    (hf : ∀ q ∈ f, hsvInDomain q = true) :
    applyBiasFrame c f = f := by
  unfold applyBiasFrame
  induction f with
  | nil => rfl
  | cons q t ih =>
      simp only [List.map_cons]
      rw [ih (fun x hx => hf x (List.mem_cons_of_mem q hx))]
      rw [applyBiasPix_zero_identity c q hc (hf q (List.mem_cons_self q t))]

/-- Witness for `applyBiasFrame_zero_identity` on a concrete two-pixel
frame with zero bias. -/
theorem applyBiasFrame_zero_identity_witness :
    applyBiasFrame ⟨0, 179, 0, 255, 0, 255, 0, 0, 0, 0, 0, 0⟩
        [⟨10, 20, 30⟩, ⟨179, 255, 255⟩] = [⟨10, 20, 30⟩, ⟨179, 255, 255⟩] :=
  applyBiasFrame_zero_identity _ _ (by decide) (by decide)

/-- Observable outcome of one run of `main` (lines 29-157): whether the
usage message was written to diagnostic output, whether a shared-memory
attach was attempted, whether the display loop was entered, and the
process exit code. -/
structure MainOutcome where
  usagePrinted : Bool
  attachAttempted : Bool
  loopStarted : Bool
  retCode : Int
deriving DecidableEq, Repr

/-- The control flow of `main`: `retCode` starts at 1 (line 30); if any of
the `name`, `width`, `height` arguments is missing (lines 31-33) the usage
text is printed to `std::cerr` (lines 34-40) and nothing else happens; in
the `else` branch the shared memory is attached (line 48) and, only when
the attachment is valid (line 49), the display loop runs (line 98);
`retCode` is then set to 0 at the end of the `else` branch (line 155),
whether or not the attachment was valid. -/
def runMain (hasName hasWidth hasHeight attachValid : Bool) : MainOutcome :=
  if hasName && hasWidth && hasHeight then
    if attachValid then
      ⟨false, true, true, 0⟩
    else
      ⟨false, true, false, 0⟩
  else
    ⟨true, false, false, 1⟩

/-- C2 counterexample. The claim says that with the arguments present but
the attachment invalid, the process exits with a non-zero status.  It does
not: `retCode = 0;` (line 155) sits at the end of the argument-present
branch, outside the `if (sharedMemory && sharedMemory->valid())` guard, so
the process exits with status 0 (while the loop indeed never starts). -/
theorem attach_failure_exit_code_zero :
    (runMain true true true false).loopStarted = false ∧
    (runMain true true true false).retCode = 0 ∧
    ¬ (runMain true true true false).retCode ≠ 0 := by
  decide

/-- C2 (amended). When the command-line arguments are present but the named
shared-memory segment cannot be attached, the display loop never starts,
but the process exits with status 0 (the success code), not a failure
status. -/
theorem attach_failure_no_loop (hasName hasWidth hasHeight : Bool)
    (hargs : (hasName && hasWidth && hasHeight) = true) :
    (runMain hasName hasWidth hasHeight false).loopStarted = false ∧
    (runMain hasName hasWidth hasHeight false).retCode = 0 := by
  unfold runMain
  rw [hargs]
  simp

/-- Witness for `attach_failure_no_loop` with all three arguments present. -/
theorem attach_failure_no_loop_witness :
    (runMain true true true false).loopStarted = false ∧
    (runMain true true true false).retCode = 0 :=
  attach_failure_no_loop true true true (by decide)

/-- C8. If any required startup parameter (`name`, `width` or `height`) is
missing, the usage message is reported on diagnostic output, no
shared-buffer attach is attempted, and the display loop never starts,
regardless of whether the attach would have succeeded. -/
theorem missing_argument_help_path
    (hasName hasWidth hasHeight attachValid : Bool)
    (hmissing : hasName = false ∨ hasWidth = false ∨ hasHeight = false) :
    (runMain hasName hasWidth hasHeight attachValid).usagePrinted = true ∧
    (runMain hasName hasWidth hasHeight attachValid).attachAttempted = false ∧
    (runMain hasName hasWidth hasHeight attachValid).loopStarted = false := by
  unfold runMain
  rcases hmissing with h | h | h <;> subst h <;> simp

/-- Witness for `missing_argument_help_path` with `width` missing. -/
theorem missing_argument_help_path_witness :
    (runMain true false true true).usagePrinted = true ∧
    (runMain true false true true).attachAttempted = false ∧
    (runMain true false true true).loopStarted = false :=
  missing_argument_help_path true false true true (Or.inr (Or.inl rfl))

/-- The observable actions of one iteration of the display loop, in source
order. -/
inductive LoopEvent where
  | lock
  | rebindHeader
  | unlock
  | convertColor
  | splitChannels
  | widenChannels
  | biasChannels
  | narrowChannels
  | mergeChannels
  | computeMaskEv
  | convertBack
  | compositeEv
  | showMask
  | showFiltered
deriving DecidableEq, Repr

/-- The event sequence of one display-loop iteration, in the order of
lines 102-148 of the source: `sharedMemory->lock()` (line 107),
`img = cv::cvarrToMat(iplimage)` (the header rebind, line 114),
`sharedMemory->unlock()` (line 116), then — outside the critical section —
`cvtColor` to HSV (line 118), `split` (line 121), `convertTo(CV_16S)`
(line 122-123), the three bias lines (124-126), `convertTo(CV_8U)`
(128-130), `merge` (line 132), `inRange` (line 136), `cvtColor` back to
BGR (line 140), `copyTo` with mask (line 144) and the two `imshow` calls
(lines 146-147). -/
def loopIteration : List LoopEvent :=
  [.lock, .rebindHeader, .unlock,
   .convertColor, .splitChannels, .widenChannels, .biasChannels,
   .narrowChannels, .mergeChannels, .computeMaskEv, .convertBack,
   .compositeEv, .showMask, .showFiltered]

/-- C10. In every loop iteration the critical section is minimal: the
iteration starts with `lock`, only the header rebind of the raw frame
bytes happens between `lock` and `unlock`, the `unlock` occurs on the one
execution path of the straight-line acquisition, and every color
conversion, bias, mask and presentation step comes strictly after the
`unlock`. -/
theorem loopIteration_minimal_critical_section :
    loopIteration.takeWhile (fun e => e ≠ LoopEvent.unlock) =
      [LoopEvent.lock, LoopEvent.rebindHeader] ∧
    LoopEvent.unlock ∈ loopIteration ∧
    (∀ e ∈ loopIteration.drop 3, e ≠ LoopEvent.lock ∧ e ≠ LoopEvent.unlock) ∧
    loopIteration.drop 3 =
      [.convertColor, .splitChannels, .widenChannels, .biasChannels,
       .narrowChannels, .mergeChannels, .computeMaskEv, .convertBack,
       .compositeEv, .showMask, .showFiltered] := by
  decide

end HsvInspector
